import Mathlib

/-!
# Verification of the rust-filestore wire codec and server dispatcher

Shallow embedding of `src/lib.rs` (wire codec) and `src/bin/server/main.rs`
(operation dispatcher and accept loop) of jonklein2021/rust-filestore.

Rust strings are modelled as their UTF-8 byte sequences (`List Nat`), so a
`String` value is a byte list satisfying `isValidUtf8`.  Rust slice indexing
`data[a..b]` panics when `b > data.len()`; the decoders perform no bounds
checks before slicing, so decoding is modelled with an explicit `panic`
outcome next to `ok` and `err` (the `Err(..)` return of the Rust function).
Machine integers: `len as u32` truncates to the low 32 bits, modelled as
`% 2^32`.
-/

namespace FileStore

/-- Embeds `enum Operation` of `src/lib.rs` lines 12-18. -/
inductive Operation where
  | READ
  | WRITE
  | DELETE
  | LIST
deriving DecidableEq, Repr

/-- Embeds `req.op as u8` (the discriminant values noted in the source:
READ=0, WRITE=1, DELETE=2, LIST=3). -/
def Operation.toU8 : Operation → Nat
  | .READ => 0
  | .WRITE => 1
  | .DELETE => 2
  | .LIST => 3

/-- Embeds `Operation::from_u8` of `src/lib.rs` lines 21-29. -/
def Operation.fromU8 (value : Nat) : Option Operation :=
  match value with
  | 0 => some .READ
  | 1 => some .WRITE
  | 2 => some .DELETE
  | 3 => some .LIST
  | _ => none

/-- Embeds `struct Request` of `src/lib.rs`; `filename` is the UTF-8 byte
sequence of the Rust `String`. -/
structure Request where
  op : Operation
  filename : List Nat
  filebytes : List Nat
deriving DecidableEq, Repr

/-- Embeds `struct Response` of `src/lib.rs`. -/
structure Response where
  ok : Bool
  msg : List Nat
  filename : Option (List Nat)
  filebytes : Option (List Nat)
deriving DecidableEq, Repr

/-- Embeds `u32::to_be_bytes` applied to `len as u32`: the four big-endian
bytes of `n % 2^32`. -/
def toBeBytes4 (n : Nat) : List Nat :=
  [n / 2 ^ 24 % 256, n / 2 ^ 16 % 256, n / 2 ^ 8 % 256, n % 256]

/-- Embeds `u32::from_be_bytes` on a four-byte slice. -/
def beVal4 (l : List Nat) : Nat :=
  match l with
  | [a, b, c, d] => a * 2 ^ 24 + b * 2 ^ 16 + c * 2 ^ 8 + d
  | _ => 0

/-- Is `b` a UTF-8 continuation byte (`0x80..=0xBF`)? -/
def isCont (b : Nat) : Bool := 0x80 ≤ b && b ≤ 0xBF

/-- UTF-8 validity of a byte sequence, as checked by Rust's
`String::from_utf8` (well-formed sequences, surrogates excluded, range
capped at U+10FFFF).  A Rust `String` is exactly a byte list satisfying
this predicate. -/
def isValidUtf8 : List Nat → Bool
  | [] => true
  | b :: rest =>
    if b ≤ 0x7F then isValidUtf8 rest
    else if 0xC2 ≤ b && b ≤ 0xDF then
      match rest with
      | c1 :: rest2 => isCont c1 && isValidUtf8 rest2
      | _ => false
    else if b = 0xE0 then
      match rest with
      | c1 :: c2 :: rest2 => (0xA0 ≤ c1 && c1 ≤ 0xBF) && isCont c2 && isValidUtf8 rest2
      | _ => false
    else if 0xE1 ≤ b && b ≤ 0xEC then
      match rest with
      | c1 :: c2 :: rest2 => isCont c1 && isCont c2 && isValidUtf8 rest2
      | _ => false
    else if b = 0xED then
      match rest with
      | c1 :: c2 :: rest2 => (0x80 ≤ c1 && c1 ≤ 0x9F) && isCont c2 && isValidUtf8 rest2
      | _ => false
    else if 0xEE ≤ b && b ≤ 0xEF then
      match rest with
      | c1 :: c2 :: rest2 => isCont c1 && isCont c2 && isValidUtf8 rest2
      | _ => false
    else if b = 0xF0 then
      match rest with
      | c1 :: c2 :: c3 :: rest2 =>
          (0x90 ≤ c1 && c1 ≤ 0xBF) && isCont c2 && isCont c3 && isValidUtf8 rest2
      | _ => false
    else if 0xF1 ≤ b && b ≤ 0xF3 then
      match rest with
      | c1 :: c2 :: c3 :: rest2 => isCont c1 && isCont c2 && isCont c3 && isValidUtf8 rest2
      | _ => false
    else if b = 0xF4 then
      match rest with
      | c1 :: c2 :: c3 :: rest2 =>
          (0x80 ≤ c1 && c1 ≤ 0x8F) && isCont c2 && isCont c3 && isValidUtf8 rest2
      | _ => false
    else false

/-- Outcome of running a Rust decoder: a normal `Ok` value, a returned
`Err` (the `ProtocolError` of the spec, carrying the `io::Error` message),
or a panic from an out-of-bounds slice index. -/
inductive DecodeResult (α : Type) where
  | ok (value : α)
  | err (msg : String)
  | panic
deriving DecidableEq, Repr

/-- Embeds the Rust slice `data[pos..pos+k]`: defined (as `some`) exactly
when `pos + k ≤ data.len()`; a Rust program panics otherwise. -/
def slice (data : List Nat) (pos k : Nat) : Option (List Nat) :=
  if pos + k ≤ data.length then some ((data.drop pos).take k) else none

/-- Runs the continuation on a defined slice; models the panic of an
out-of-bounds index when the slice is undefined. -/
def orPanic {α β : Type} (o : Option α) (k : α → DecodeResult β) : DecodeResult β :=
  match o with
  | none => .panic
  | some a => k a

/-- Embeds `serialize_request` of `src/lib.rs` lines 48-66:
`[op:1][filename_len:4][filename][filebytes_len:4][filebytes]` with each
length written as `len as u32` (truncation modulo `2^32`).  The Rust
function returns `Result` but never errs, so the embedding is total. -/
def serialize_request (req : Request) : List Nat :=
  [req.op.toU8]
    ++ toBeBytes4 (req.filename.length % 2 ^ 32) ++ req.filename
    ++ toBeBytes4 (req.filebytes.length % 2 ^ 32) ++ req.filebytes

/-- Embeds `deserialize_request` of `src/lib.rs` lines 69-92, including its
unchecked slice indexing (`data[pos]`, `data[pos..pos+4]`, ...): any index
past the buffer end is a panic, not an `Err`. -/
def deserialize_request (data : List Nat) : DecodeResult Request :=
  orPanic data[0]? fun b =>
  match Operation.fromU8 b with
  | none => .err "Invalid operation"
  | some op =>
    orPanic (slice data 1 4) fun lb1 =>
    let filename_len := beVal4 lb1
    orPanic (slice data 5 filename_len) fun fname =>
    if isValidUtf8 fname then
      orPanic (slice data (5 + filename_len) 4) fun lb2 =>
      let file_len := beVal4 lb2
      orPanic (slice data (5 + filename_len + 4) file_len) fun fb =>
      .ok ⟨op, fname, fb⟩
    else .err "Invalid UTF-8 sequence"

/-- Embeds `serialize_response` of `src/lib.rs` lines 102-130:
`[ok:1][msg_len:4][msg]`, then a length-prefixed filename only when
present, then length-prefixed filebytes only when present. -/
def serialize_response (res : Response) : List Nat :=
  [if res.ok then 1 else 0]
    ++ toBeBytes4 (res.msg.length % 2 ^ 32) ++ res.msg
    ++ (match res.filename with
        | some name => toBeBytes4 (name.length % 2 ^ 32) ++ name
        | none => [])
    ++ (match res.filebytes with
        | some bytes => toBeBytes4 (bytes.length % 2 ^ 32) ++ bytes
        | none => [])

/-- Embeds `deserialize_response` of `src/lib.rs` lines 133-168: reads
`ok` and `msg`, returns `filename = filebytes = None` when the buffer is
exhausted after `msg`, and otherwise reads both with unchecked slicing. -/
def deserialize_response (data : List Nat) : DecodeResult Response :=
  orPanic data[0]? fun b =>
  let ok := b != 0
  orPanic (slice data 1 4) fun lb1 =>
  let msg_len := beVal4 lb1
  orPanic (slice data 5 msg_len) fun msg =>
  if isValidUtf8 msg then
    if 5 + msg_len ≥ data.length then .ok ⟨ok, msg, none, none⟩
    else
      orPanic (slice data (5 + msg_len) 4) fun lb2 =>
      let filename_len := beVal4 lb2
      orPanic (slice data (5 + msg_len + 4) filename_len) fun fname =>
      if isValidUtf8 fname then
        orPanic (slice data (5 + msg_len + 4 + filename_len) 4) fun lb3 =>
        let filebytes_len := beVal4 lb3
        orPanic (slice data (5 + msg_len + 4 + filename_len + 4) filebytes_len) fun fb =>
        .ok ⟨ok, msg, some fname, some fb⟩
      else .err "Invalid UTF-8 sequence"
  else .err "Invalid UTF-8 sequence"

/-- UTF-8 bytes of an ASCII string literal (all literals used by the
server are ASCII, where code points and bytes coincide). -/
def strBytes (s : String) : List Nat := s.toList.map Char.toNat

/-- Server-side store state: the entries directly under the `files/` store
root, as an association list of filename bytes to content bytes (the
filesystem keeps one entry per name). -/
abbrev Store := List (List Nat × List Nat)

/-- Embeds `File::open` for READ: the contents of the named entry, or
`none` when the file does not exist. -/
def lookupStore : Store → List Nat → Option (List Nat)
  | [], _ => none
  | (k, v) :: rest, name => if k = name then some v else lookupStore rest name

/-- Embeds `File::create` + `write_all` for WRITE: create or truncate the
named entry so that it holds exactly the written bytes. -/
def insertStore : Store → List Nat → List Nat → Store
  | [], name, bytes => [(name, bytes)]
  | (k, v) :: rest, name, bytes =>
    if k = name then (name, bytes) :: rest
    else (k, v) :: insertStore rest name bytes

/-- Embeds `tokio::fs::remove_file` for DELETE: removing the named entry;
fails (and the code answers `ok=false`) exactly when it is absent. -/
def removeStore : Store → List Nat → Store
  | [], _ => []
  | (k, v) :: rest, name => if k = name then rest else (k, v) :: removeStore rest name

/-- Embeds the LIST branch body (`src/bin/server/main.rs` lines 102-121):
for each directory entry, `files += &path.to_string_lossy(); files += "\n"`,
where `entry.path()` is the path `files/<name>`, not the bare name. -/
def listMsg (store : Store) : List Nat :=
  match store with
  | [] => []
  | (k, _) :: rest => strBytes "files/" ++ k ++ [10] ++ listMsg rest

/-- Embeds the operation dispatcher of `handle_client`
(`src/bin/server/main.rs` lines 46-122): the `match req.op` producing the
`Response` and the store's new state.  Filesystem outcomes local to the
named entry (not-found on READ, removal failure on DELETE) become
`ok=false` responses, exactly as in the code. -/
def dispatch (req : Request) (store : Store) : Response × Store :=
  match req.op with
  | .READ =>
    match lookupStore store req.filename with
    | some contents =>
      (⟨true, strBytes "File successfully returned.",
        some req.filename, some contents⟩, store)
    | none =>
      (⟨false, strBytes "File not found on server.", none, none⟩, store)
  | .WRITE =>
    (⟨true, strBytes "File successfully stored.", none, none⟩,
     insertStore store req.filename req.filebytes)
  | .DELETE =>
    match lookupStore store req.filename with
    | some _ =>
      (⟨true, strBytes "File successfully deleted.", none, none⟩,
       removeStore store req.filename)
    | none =>
      (⟨false, strBytes "File could not be deleted.", none, none⟩, store)
  | .LIST =>
    (⟨true, listMsg store, none, none⟩, store)

/-- State of the server's accept loop after processing a trace of
connections. -/
inductive ServerResult where
  | running (store : Store)
  | terminated (e : String)
  | panicked
deriving Repr, DecidableEq

/-- Embeds `main`'s accept loop (`src/bin/server/main.rs` lines 148-157)
driving `handle_client` on each accepted connection's received bytes:
`if let Err(e) = handle_client(socket).await { return Err(e.into()); }`,
so a decode `Err` from one connection is returned out of the loop
(`terminated`), and a decode panic unwinds out of `main` (`panicked`);
otherwise the response is dispatched and the loop continues with the
updated store. -/
def serverMain : List (List Nat) → Store → ServerResult
  | [], store => .running store
  | raw :: rest, store =>
    match deserialize_request raw with
    | .ok req => serverMain rest (dispatch req store).2
    | .err e => .terminated e
    | .panic => .panicked

/-! ### Helper lemmas about the codec primitives -/

/-- Reading four big-endian bytes back recovers the encoded value modulo
`2^32`. -/
theorem beVal4_toBeBytes4 (n : Nat) : beVal4 (toBeBytes4 n) = n % 2 ^ 32 := by
  simp only [toBeBytes4, beVal4]
  have e1 : n / 2 ^ 24 % 256 = n % 2 ^ 32 / 2 ^ 24 := by
    rw [(Nat.mod_mul_right_div_self n (2 ^ 24) 256).symm]
    norm_num
  have e2 : n / 2 ^ 16 % 256 = n % 2 ^ 24 / 2 ^ 16 := by
    rw [(Nat.mod_mul_right_div_self n (2 ^ 16) 256).symm]
    norm_num
  have e3 : n / 2 ^ 8 % 256 = n % 2 ^ 16 / 2 ^ 8 := by
    rw [(Nat.mod_mul_right_div_self n (2 ^ 8) 256).symm]
    norm_num
  have d1 := Nat.div_add_mod (n % 2 ^ 32) (2 ^ 24)
  have d2 := Nat.div_add_mod (n % 2 ^ 24) (2 ^ 16)
  have d3 := Nat.div_add_mod (n % 2 ^ 16) (2 ^ 8)
  have m1 : n % 2 ^ 32 % 2 ^ 24 = n % 2 ^ 24 := Nat.mod_mod_of_dvd n (by norm_num)
  have m2 : n % 2 ^ 24 % 2 ^ 16 = n % 2 ^ 16 := Nat.mod_mod_of_dvd n (by norm_num)
  have m3 : n % 2 ^ 16 % 2 ^ 8 = n % 2 ^ 8 := Nat.mod_mod_of_dvd n (by norm_num)
  have m4 : n % 256 = n % 2 ^ 8 := by norm_num
  rw [e1, e2, e3, m4]
  omega

theorem length_toBeBytes4 (n : Nat) : (toBeBytes4 n).length = 4 := by
  simp [toBeBytes4]

/-- A slice taken at the boundary between `pre` and `mid`, with exactly
`mid`'s length, returns `mid`. -/
theorem slice_eq_of_parts (data pre mid post : List Nat) (pos k : Nat)
    (hd : data = pre ++ (mid ++ post)) (hp : pos = pre.length)
    (hk : k = mid.length) :
    slice data pos k = some mid := by
  subst hd hp hk
  unfold slice
  rw [if_pos]
  · rw [List.drop_left, List.take_left]
  · simp

theorem fromU8_toU8 (op : Operation) : Operation.fromU8 op.toU8 = some op := by
  cases op <;> rfl

/-- Decoding an encoded request followed by arbitrary trailing bytes
succeeds and ignores the extra bytes: the decoder stops after the
filebytes field. -/
theorem deser_ser_request (op : Operation) (fname fb t : List Nat)
    (h1 : fname.length < 2 ^ 32) (h2 : fb.length < 2 ^ 32)
    (h3 : isValidUtf8 fname = true) :
    deserialize_request (serialize_request ⟨op, fname, fb⟩ ++ t) =
      .ok ⟨op, fname, fb⟩ := by
  have hmm1 : fname.length % 2 ^ 32 % 2 ^ 32 = fname.length :=
    (Nat.mod_mod_of_dvd _ dvd_rfl).trans (Nat.mod_eq_of_lt h1)
  have hmm2 : fb.length % 2 ^ 32 % 2 ^ 32 = fb.length :=
    (Nat.mod_mod_of_dvd _ dvd_rfl).trans (Nat.mod_eq_of_lt h2)
  have h0 : (serialize_request ⟨op, fname, fb⟩ ++ t)[0]? = some op.toU8 := by
    simp [serialize_request]
  have hs1 : slice (serialize_request ⟨op, fname, fb⟩ ++ t) 1 4 =
      some (toBeBytes4 (fname.length % 2 ^ 32)) :=
    slice_eq_of_parts _ [op.toU8] (toBeBytes4 (fname.length % 2 ^ 32))
      (fname ++ (toBeBytes4 (fb.length % 2 ^ 32) ++ (fb ++ t))) 1 4
      (by simp [serialize_request]) (by simp) (length_toBeBytes4 _).symm
  have hb1 : beVal4 (toBeBytes4 (fname.length % 2 ^ 32)) = fname.length := by
    rw [beVal4_toBeBytes4, hmm1]
  have hs2 : slice (serialize_request ⟨op, fname, fb⟩ ++ t) 5 fname.length =
      some fname :=
    slice_eq_of_parts _ ([op.toU8] ++ toBeBytes4 (fname.length % 2 ^ 32)) fname
      (toBeBytes4 (fb.length % 2 ^ 32) ++ (fb ++ t)) 5 fname.length
      (by simp [serialize_request]) (by simp [length_toBeBytes4]) rfl
  have hs3 : slice (serialize_request ⟨op, fname, fb⟩ ++ t) (5 + fname.length) 4 =
      some (toBeBytes4 (fb.length % 2 ^ 32)) :=
    slice_eq_of_parts _
      ([op.toU8] ++ toBeBytes4 (fname.length % 2 ^ 32) ++ fname)
      (toBeBytes4 (fb.length % 2 ^ 32)) (fb ++ t) (5 + fname.length) 4
      (by simp [serialize_request]) (by simp [length_toBeBytes4]; omega)
      (length_toBeBytes4 _).symm
  have hb2 : beVal4 (toBeBytes4 (fb.length % 2 ^ 32)) = fb.length := by
    rw [beVal4_toBeBytes4, hmm2]
  have hs4 : slice (serialize_request ⟨op, fname, fb⟩ ++ t)
      (5 + fname.length + 4) fb.length = some fb :=
    slice_eq_of_parts _
      ([op.toU8] ++ toBeBytes4 (fname.length % 2 ^ 32) ++ fname ++
        toBeBytes4 (fb.length % 2 ^ 32))
      fb t (5 + fname.length + 4) fb.length
      (by simp [serialize_request]) (by simp [length_toBeBytes4]; omega) rfl
  unfold deserialize_request
  rw [h0]
  simp only [orPanic, fromU8_toU8, hs1, hb1, hs2, h3, hs3, hb2, hs4, if_true]

theorem bne_ok_byte (ok : Bool) : ((if ok then (1 : Nat) else 0) != 0) = ok := by
  cases ok <;> rfl

/-- Decoding an encoded response with no file payload recovers it: after
`msg` the buffer is exhausted, so the decoder returns `None` for both
optional fields. -/
theorem deser_ser_response_none (ok : Bool) (msg : List Nat)
    (h1 : msg.length < 2 ^ 32) (h2 : isValidUtf8 msg = true) :
    deserialize_response (serialize_response ⟨ok, msg, none, none⟩) =
      .ok ⟨ok, msg, none, none⟩ := by
  have hmm1 : msg.length % 2 ^ 32 % 2 ^ 32 = msg.length :=
    (Nat.mod_mod_of_dvd _ dvd_rfl).trans (Nat.mod_eq_of_lt h1)
  have h0 : (serialize_response ⟨ok, msg, none, none⟩)[0]? =
      some (if ok then 1 else 0) := by
    simp [serialize_response]
  have hs1 : slice (serialize_response ⟨ok, msg, none, none⟩) 1 4 =
      some (toBeBytes4 (msg.length % 2 ^ 32)) :=
    slice_eq_of_parts _ [if ok then 1 else 0] (toBeBytes4 (msg.length % 2 ^ 32))
      msg 1 4 (by simp [serialize_response]) (by simp) (length_toBeBytes4 _).symm
  have hb1 : beVal4 (toBeBytes4 (msg.length % 2 ^ 32)) = msg.length := by
    rw [beVal4_toBeBytes4, hmm1]
  have hs2 : slice (serialize_response ⟨ok, msg, none, none⟩) 5 msg.length =
      some msg :=
    slice_eq_of_parts _ ([if ok then 1 else 0] ++ toBeBytes4 (msg.length % 2 ^ 32))
      msg [] 5 msg.length (by simp [serialize_response])
      (by simp [length_toBeBytes4]) rfl
  have hcond : (5 + msg.length ≥ (serialize_response ⟨ok, msg, none, none⟩).length)
      = True := by
    simp [serialize_response, toBeBytes4]
    omega
  unfold deserialize_response
  rw [h0]
  simp only [orPanic, bne_ok_byte, hs1, hb1, hs2, h2, hcond, if_true]

/-- Decoding an encoded response with both optional fields present
recovers it. -/
theorem deser_ser_response_some (ok : Bool) (msg fname fb : List Nat)
    (h1 : msg.length < 2 ^ 32) (h2 : isValidUtf8 msg = true)
    (h3 : fname.length < 2 ^ 32) (h4 : isValidUtf8 fname = true)
    (h5 : fb.length < 2 ^ 32) :
    deserialize_response (serialize_response ⟨ok, msg, some fname, some fb⟩) =
      .ok ⟨ok, msg, some fname, some fb⟩ := by
  have hmm1 : msg.length % 2 ^ 32 % 2 ^ 32 = msg.length :=
    (Nat.mod_mod_of_dvd _ dvd_rfl).trans (Nat.mod_eq_of_lt h1)
  have hmm3 : fname.length % 2 ^ 32 % 2 ^ 32 = fname.length :=
    (Nat.mod_mod_of_dvd _ dvd_rfl).trans (Nat.mod_eq_of_lt h3)
  have hmm5 : fb.length % 2 ^ 32 % 2 ^ 32 = fb.length :=
    (Nat.mod_mod_of_dvd _ dvd_rfl).trans (Nat.mod_eq_of_lt h5)
  have h0 : (serialize_response ⟨ok, msg, some fname, some fb⟩)[0]? =
      some (if ok then 1 else 0) := by
    simp [serialize_response]
  have hs1 : slice (serialize_response ⟨ok, msg, some fname, some fb⟩) 1 4 =
      some (toBeBytes4 (msg.length % 2 ^ 32)) :=
    slice_eq_of_parts _ [if ok then 1 else 0] (toBeBytes4 (msg.length % 2 ^ 32))
      (msg ++ (toBeBytes4 (fname.length % 2 ^ 32) ++ (fname ++
        (toBeBytes4 (fb.length % 2 ^ 32) ++ fb)))) 1 4
      (by simp [serialize_response]) (by simp) (length_toBeBytes4 _).symm
  have hb1 : beVal4 (toBeBytes4 (msg.length % 2 ^ 32)) = msg.length := by
    rw [beVal4_toBeBytes4, hmm1]
  have hs2 : slice (serialize_response ⟨ok, msg, some fname, some fb⟩) 5
      msg.length = some msg :=
    slice_eq_of_parts _ ([if ok then 1 else 0] ++ toBeBytes4 (msg.length % 2 ^ 32))
      msg (toBeBytes4 (fname.length % 2 ^ 32) ++ (fname ++
        (toBeBytes4 (fb.length % 2 ^ 32) ++ fb))) 5 msg.length
      (by simp [serialize_response]) (by simp [length_toBeBytes4]) rfl
  have hcond : (5 + msg.length ≥
      (serialize_response ⟨ok, msg, some fname, some fb⟩).length) = False := by
    simp [serialize_response, toBeBytes4]
    omega
  have hs3 : slice (serialize_response ⟨ok, msg, some fname, some fb⟩)
      (5 + msg.length) 4 = some (toBeBytes4 (fname.length % 2 ^ 32)) :=
    slice_eq_of_parts _
      ([if ok then 1 else 0] ++ toBeBytes4 (msg.length % 2 ^ 32) ++ msg)
      (toBeBytes4 (fname.length % 2 ^ 32))
      (fname ++ (toBeBytes4 (fb.length % 2 ^ 32) ++ fb)) (5 + msg.length) 4
      (by simp [serialize_response]) (by simp [length_toBeBytes4]; omega)
      (length_toBeBytes4 _).symm
  have hb3 : beVal4 (toBeBytes4 (fname.length % 2 ^ 32)) = fname.length := by
    rw [beVal4_toBeBytes4, hmm3]
  have hs4 : slice (serialize_response ⟨ok, msg, some fname, some fb⟩)
      (5 + msg.length + 4) fname.length = some fname :=
    slice_eq_of_parts _
      ([if ok then 1 else 0] ++ toBeBytes4 (msg.length % 2 ^ 32) ++ msg ++
        toBeBytes4 (fname.length % 2 ^ 32))
      fname (toBeBytes4 (fb.length % 2 ^ 32) ++ fb) (5 + msg.length + 4)
      fname.length
      (by simp [serialize_response]) (by simp [length_toBeBytes4]; omega) rfl
  have hs5 : slice (serialize_response ⟨ok, msg, some fname, some fb⟩)
      (5 + msg.length + 4 + fname.length) 4 =
      some (toBeBytes4 (fb.length % 2 ^ 32)) :=
    slice_eq_of_parts _
      ([if ok then 1 else 0] ++ toBeBytes4 (msg.length % 2 ^ 32) ++ msg ++
        toBeBytes4 (fname.length % 2 ^ 32) ++ fname)
      (toBeBytes4 (fb.length % 2 ^ 32)) fb (5 + msg.length + 4 + fname.length) 4
      (by simp [serialize_response]) (by simp [length_toBeBytes4]; omega)
      (length_toBeBytes4 _).symm
  have hb5 : beVal4 (toBeBytes4 (fb.length % 2 ^ 32)) = fb.length := by
    rw [beVal4_toBeBytes4, hmm5]
  have hs6 : slice (serialize_response ⟨ok, msg, some fname, some fb⟩)
      (5 + msg.length + 4 + fname.length + 4) fb.length = some fb :=
    slice_eq_of_parts _
      ([if ok then 1 else 0] ++ toBeBytes4 (msg.length % 2 ^ 32) ++ msg ++
        toBeBytes4 (fname.length % 2 ^ 32) ++ fname ++
        toBeBytes4 (fb.length % 2 ^ 32))
      fb [] (5 + msg.length + 4 + fname.length + 4) fb.length
      (by simp [serialize_response]) (by simp [length_toBeBytes4]; omega) rfl
  unfold deserialize_response
  rw [h0]
  simp only [orPanic, bne_ok_byte, hs1, hb1, hs2, h2, hcond, hs3, hb3, hs4, h4,
    hs5, hb5, hs6, if_true, if_false]

/-! ### Store lemmas -/

theorem lookupStore_insertStore (s : Store) (n b : List Nat) :
    lookupStore (insertStore s n b) n = some b := by
  induction s with
  | nil => simp [insertStore, lookupStore]
  | cons p rest ih =>
    obtain ⟨k, v⟩ := p
    by_cases h : k = n
    · simp [insertStore, h, lookupStore]
    · simp [insertStore, h, lookupStore, ih]

/-! ### Splitting the LIST message into lines -/

/-- Splits a byte sequence at every newline byte (10); a trailing newline
yields a final empty segment. -/
def splitNl : List Nat → List (List Nat)
  | [] => [[]]
  | b :: rest =>
    if b = 10 then [] :: splitNl rest
    else
      match splitNl rest with
      | r :: rs => (b :: r) :: rs
      | [] => [[b]]

theorem splitNl_append_sep (p rest : List Nat) (hp : (10 : Nat) ∉ p) :
    splitNl (p ++ 10 :: rest) = p :: splitNl rest := by
  induction p with
  | nil => simp [splitNl]
  | cons b bs ih =>
    have hb : b ≠ 10 := fun h => hp (h ▸ List.mem_cons_self b bs)
    have hbs : (10 : Nat) ∉ bs := fun h => hp (List.mem_cons_of_mem b h)
    simp only [List.cons_append, splitNl, if_neg hb]
    rw [show bs.append (10 :: rest) = bs ++ 10 :: rest from rfl, ih hbs]

/-- Splitting the LIST message at newlines yields, in store order, the line
`files/<name>` for each entry, then the empty segment after the final
newline. -/
theorem splitNl_listMsg (store : Store) (h : ∀ p ∈ store, (10 : Nat) ∉ p.1) :
    splitNl (listMsg store) =
      store.map (fun e => strBytes "files/" ++ e.1) ++ [[]] := by
  induction store with
  | nil => simp [listMsg, splitNl]
  | cons e rest ih =>
    obtain ⟨k, v⟩ := e
    have hk : (10 : Nat) ∉ strBytes "files/" ++ k := by
      intro hmem
      rcases List.mem_append.1 hmem with h1 | h2
      · revert h1
        decide
      · exact h (k, v) (List.mem_cons_self _ _) h2
    have hshape : listMsg ((k, v) :: rest) =
        (strBytes "files/" ++ k) ++ 10 :: listMsg rest := by
      simp [listMsg]
    rw [hshape, splitNl_append_sep _ _ hk,
      ih (fun p hp => h p (List.mem_cons_of_mem _ hp))]
    simp

/-! ### Validity of wire values -/

/-- A Rust `Request` value within the spec's size bounds: each field
shorter than `2^32` bytes, the filename being a `String` (valid UTF-8). -/
def ValidRequest (r : Request) : Prop :=
  r.filename.length < 2 ^ 32 ∧ r.filebytes.length < 2 ^ 32 ∧
    isValidUtf8 r.filename = true

/-- A Rust `Response` value within the spec's size bounds, with `filename`
and `filebytes` both present or both absent. -/
def ValidResponse (s : Response) : Prop :=
  s.msg.length < 2 ^ 32 ∧ isValidUtf8 s.msg = true ∧
    ((s.filename = none ∧ s.filebytes = none) ∨
      ∃ fname fb, s.filename = some fname ∧ s.filebytes = some fb ∧
        fname.length < 2 ^ 32 ∧ isValidUtf8 fname = true ∧ fb.length < 2 ^ 32)

/-! ### Claim theorems -/

/-- C1: the claim that `deserialize_request` and `deserialize_response`
return a ProtocolError on every truncated or malformed input, never
panicking or indexing out of bounds, fails on the code: the decoders slice
without bounds checks, so the empty input and every strict prefix of the
example request frame (16 bytes) and of a payload-free response frame
(7 bytes) panic on an out-of-bounds index.  Only the unknown-operation-tag
and invalid-UTF-8 cases return `Err` as claimed. -/
theorem C1_truncated_frame_panics :
    deserialize_request [] = .panic ∧
    deserialize_response [] = .panic ∧
    (∀ k : Fin 16, deserialize_request
      ((serialize_request ⟨.WRITE, strBytes "a.txt", [104, 105]⟩).take k.val) =
        .panic) ∧
    (∀ k : Fin 7, deserialize_response
      ((serialize_response ⟨true, strBytes "hi", none, none⟩).take k.val) =
        .panic) ∧
    deserialize_request [7] = .err "Invalid operation" ∧
    deserialize_request [0, 0, 0, 0, 1, 255, 0, 0, 0, 0] =
      .err "Invalid UTF-8 sequence" := by
  decide

/-- C2: decoding the encoding of a valid `Request` or `Response` value
reproduces the value exactly. -/
theorem C2_decode_encode_roundtrip (r : Request) (s : Response)
    (hr : ValidRequest r) (hs : ValidResponse s) :
    deserialize_request (serialize_request r) = .ok r ∧
    deserialize_response (serialize_response s) = .ok s := by
  obtain ⟨op, fname, fb⟩ := r
  obtain ⟨hr1, hr2, hr3⟩ := hr
  obtain ⟨hs1, hs2, hs3⟩ := hs
  constructor
  · have h := deser_ser_request op fname fb [] hr1 hr2 hr3
    rwa [List.append_nil] at h
  · obtain ⟨ok, msg, sfn, sfb⟩ := s
    rcases hs3 with ⟨hn, hb⟩ | ⟨f, b, hn, hb, hf1, hf2, hb1⟩
    · subst hn
      subst hb
      exact deser_ser_response_none ok msg hs1 hs2
    · subst hn
      subst hb
      exact deser_ser_response_some ok msg f b hs1 hs2 hf1 hf2 hb1

/-- Witness for C2 at the spec's example request and a concrete READ
response. -/
theorem C2_decode_encode_roundtrip_witness :
    deserialize_request (serialize_request ⟨.WRITE, strBytes "a.txt", [104, 105]⟩) =
      .ok ⟨.WRITE, strBytes "a.txt", [104, 105]⟩ ∧
    deserialize_response
        (serialize_response ⟨true, strBytes "ok", some (strBytes "a.txt"), some [1, 2]⟩) =
      .ok ⟨true, strBytes "ok", some (strBytes "a.txt"), some [1, 2]⟩ :=
  C2_decode_encode_roundtrip ⟨.WRITE, strBytes "a.txt", [104, 105]⟩
    ⟨true, strBytes "ok", some (strBytes "a.txt"), some [1, 2]⟩
    ⟨by decide, by decide, by decide⟩
    ⟨by decide, by decide,
      Or.inr ⟨strBytes "a.txt", [1, 2], rfl, rfl, by decide, by decide, by decide⟩⟩

/-- C4: the claim that no per-connection error terminates the listening
loop fails on the code: `main` does
`if let Err(e) = handle_client(socket).await { return Err(e.into()); }`,
so a single connection whose request decodes to an error makes the accept
loop return, terminating the process; a connection whose received buffer
is empty even panics inside the decoder. -/
theorem C4_conn_error_terminates_loop :
    serverMain [[7]] [] = .terminated "Invalid operation" ∧
    serverMain [[]] [] = .panicked := by
  decide

/-- C3: dispatching a WRITE of name `n` with bytes `b` and then, with no
intervening operation on `n`, a READ of `n` yields `ok = true` and
filebytes exactly `b`. -/
theorem C3_write_then_read (n b rb : List Nat) (store : Store) :
    ((dispatch ⟨.READ, n, rb⟩ (dispatch ⟨.WRITE, n, b⟩ store).2).1).ok = true ∧
    ((dispatch ⟨.READ, n, rb⟩ (dispatch ⟨.WRITE, n, b⟩ store).2).1).filebytes =
      some b := by
  simp [dispatch, lookupStore_insertStore]

/-- C5: the dispatcher answers a READ whose entry exists with `ok = true`,
the requested name, the full contents and the success message; a READ of a
missing entry with `ok = false`, no payload and the not-found message; and
across all operations the optional fields are both present exactly on a
successful READ. -/
theorem C5_read_dispatch (store : Store) (req : Request) (n c rb : List Nat) :
    (lookupStore store n = some c →
      dispatch ⟨.READ, n, rb⟩ store =
        (⟨true, strBytes "File successfully returned.", some n, some c⟩, store)) ∧
    (lookupStore store n = none →
      dispatch ⟨.READ, n, rb⟩ store =
        (⟨false, strBytes "File not found on server.", none, none⟩, store)) ∧
    (((dispatch req store).1.filename.isSome ∧
        (dispatch req store).1.filebytes.isSome) ↔
      (req.op = .READ ∧ (dispatch req store).1.ok = true)) := by
  refine ⟨fun h => by simp [dispatch, h], fun h => by simp [dispatch, h], ?_⟩
  obtain ⟨op, fn, fb⟩ := req
  cases op <;> cases h : lookupStore store fn <;> simp [dispatch, h]

/-- Witness for C5: a one-entry store, read both at the stored name and at
a missing name. -/
theorem C5_read_dispatch_witness :
    dispatch ⟨.READ, [97], []⟩ [([97], [1, 2])] =
      (⟨true, strBytes "File successfully returned.", some [97], some [1, 2]⟩,
        [([97], [1, 2])]) ∧
    dispatch ⟨.READ, [98], []⟩ [([97], [1, 2])] =
      (⟨false, strBytes "File not found on server.", none, none⟩,
        [([97], [1, 2])]) :=
  ⟨(C5_read_dispatch [([97], [1, 2])] ⟨.READ, [97], []⟩ [97] [1, 2] []).1
      (by decide),
    (C5_read_dispatch [([97], [1, 2])] ⟨.READ, [98], []⟩ [98] [] []).2.1
      (by decide)⟩

/-- C7: a DELETE of a name with no entry in the store answers a normal
response with `ok = false` and the could-not-delete message, leaves the
store unchanged, and repeating the DELETE answers the same response
again. -/
theorem C7_delete_absent (store : Store) (n db db2 : List Nat)
    (h : lookupStore store n = none) :
    dispatch ⟨.DELETE, n, db⟩ store =
      (⟨false, strBytes "File could not be deleted.", none, none⟩, store) ∧
    dispatch ⟨.DELETE, n, db2⟩ (dispatch ⟨.DELETE, n, db⟩ store).2 =
      (⟨false, strBytes "File could not be deleted.", none, none⟩, store) := by
  exact ⟨by simp [dispatch, h], by simp [dispatch, h]⟩

/-- Witness for C7: deleting a never-written name from a one-entry
store, twice. -/
theorem C7_delete_absent_witness :
    dispatch ⟨.DELETE, [98], []⟩ [([97], [1])] =
      (⟨false, strBytes "File could not be deleted.", none, none⟩,
        [([97], [1])]) ∧
    dispatch ⟨.DELETE, [98], []⟩ (dispatch ⟨.DELETE, [98], []⟩ [([97], [1])]).2 =
      (⟨false, strBytes "File could not be deleted.", none, none⟩,
        [([97], [1])]) :=
  C7_delete_absent [([97], [1])] [98] [] [] (by decide)

/-- Number of occurrences of `x` in a list of byte sequences. -/
def countOcc (x : List Nat) (l : List (List Nat)) : Nat :=
  (l.filter (fun y => y = x)).length

theorem countOcc_nil (x : List Nat) : countOcc x [] = 0 := rfl

theorem countOcc_cons (x a : List Nat) (l : List (List Nat)) :
    countOcc x (a :: l) = (if a = x then 1 else 0) + countOcc x l := by
  by_cases h : a = x
  · simp [countOcc, h, List.filter_cons]
    omega
  · simp [countOcc, h, List.filter_cons]

theorem countOcc_eq_zero_of_not_mem (x : List Nat) (l : List (List Nat))
    (h : x ∉ l) : countOcc x l = 0 := by
  induction l with
  | nil => rfl
  | cons a as ih =>
    have hax : a ≠ x := fun hh => h (hh ▸ List.mem_cons_self a as)
    have hx : x ∉ as := fun hh => h (List.mem_cons_of_mem a hh)
    rw [countOcc_cons, if_neg hax, ih hx]

theorem countOcc_eq_one_of_nodup_mem (x : List Nat) (l : List (List Nat))
    (hd : l.Nodup) (hx : x ∈ l) : countOcc x l = 1 := by
  induction l with
  | nil => cases hx
  | cons a as ih =>
    rw [List.nodup_cons] at hd
    rcases List.mem_cons.1 hx with h | h
    · subst h
      rw [countOcc_cons, if_pos rfl, countOcc_eq_zero_of_not_mem x as hd.1]
    · have hax : a ≠ x := fun hh => hd.1 (hh ▸ h)
      rw [countOcc_cons, if_neg hax, ih hd.2 h]

theorem countOcc_map_append (P x : List Nat) (l : List (List Nat)) :
    countOcc (P ++ x) (l.map (fun y => P ++ y)) = countOcc x l := by
  induction l with
  | nil => rfl
  | cons a as ih =>
    by_cases hax : a = x
    · subst hax
      simp only [List.map_cons, countOcc_cons, if_pos rfl, ih]
    · have hne : ¬ (P ++ a = P ++ x) := fun hh => hax (List.append_cancel_left hh)
      simp only [List.map_cons, countOcc_cons, if_neg hax, if_neg hne, ih]

/-- C6 counterexample: with one stored file named `a`, the LIST message is
the path line `files/a` followed by a newline — `entry.path()` is
`files/<name>`, not the bare name — so `msg` is not the names joined one
per line under either reading (with or without a trailing newline). -/
theorem C6_list_counterexample :
    (dispatch ⟨.LIST, [], []⟩ [([97], [1])]).1.msg = strBytes "files/a\n" ∧
    strBytes "files/a\n" ≠ strBytes "a\n" ∧
    strBytes "files/a\n" ≠ strBytes "a" := by
  decide

/-- C6 amended: a LIST returns `ok = true` with no file payload, and `msg`
is one line per stored entry holding the entry's path `files/<name>` (not
the bare name), each followed by a newline; when the stored names are
distinct (and newline-free), each name's line occurs exactly once. -/
theorem C6_list_paths (store : Store) (n rb : List Nat)
    (h : ∀ p ∈ store, (10 : Nat) ∉ p.1) :
    (dispatch ⟨.LIST, n, rb⟩ store).1.ok = true ∧
    (dispatch ⟨.LIST, n, rb⟩ store).1.filename = none ∧
    (dispatch ⟨.LIST, n, rb⟩ store).1.filebytes = none ∧
    splitNl ((dispatch ⟨.LIST, n, rb⟩ store).1.msg) =
      store.map (fun e => strBytes "files/" ++ e.1) ++ [[]] ∧
    ((store.map Prod.fst).Nodup →
      ∀ name ∈ store.map Prod.fst,
        countOcc (strBytes "files/" ++ name)
          (store.map (fun e => strBytes "files/" ++ e.1)) = 1) := by
  refine ⟨rfl, rfl, rfl, ?_, ?_⟩
  · have hmsg : (dispatch ⟨.LIST, n, rb⟩ store).1.msg = listMsg store := rfl
    rw [hmsg, splitNl_listMsg store h]
  · intro hd name hmem
    have hmap : store.map (fun e => strBytes "files/" ++ e.1) =
        (store.map Prod.fst).map (fun x => strBytes "files/" ++ x) := by
      simp [List.map_map, Function.comp]
    rw [hmap, countOcc_map_append]
    exact countOcc_eq_one_of_nodup_mem name (store.map Prod.fst) hd hmem

/-- Witness for C6 amended at a one-entry store. -/
theorem C6_list_paths_witness :
    (dispatch ⟨.LIST, [], []⟩ [([97], [1])]).1.ok = true ∧
    (dispatch ⟨.LIST, [], []⟩ [([97], [1])]).1.filename = none ∧
    (dispatch ⟨.LIST, [], []⟩ [([97], [1])]).1.filebytes = none ∧
    splitNl ((dispatch ⟨.LIST, [], []⟩ [([97], [1])]).1.msg) =
      ([([97], [1])] : Store).map (fun e => strBytes "files/" ++ e.1) ++ [[]] ∧
    ((([([97], [1])] : Store).map Prod.fst).Nodup →
      ∀ name ∈ ([([97], [1])] : Store).map Prod.fst,
        countOcc (strBytes "files/" ++ name)
          (([([97], [1])] : Store).map (fun e => strBytes "files/" ++ e.1)) = 1) :=
  C6_list_paths [([97], [1])] [] [] (by decide)

/-- C8: `serialize_request` lays a request out as
`[op:1][filename_len:4][filename][filebytes_len:4][filebytes]` with
big-endian four-byte lengths (exact when each field is shorter than
`2^32`), the spec's example request encodes to
`01 00000005 612e747874 00000002 6869`, and decoding those bytes
reproduces the example value. -/
theorem C8_request_layout (r : Request)
    (h1 : r.filename.length < 2 ^ 32) (h2 : r.filebytes.length < 2 ^ 32) :
    serialize_request r =
      [r.op.toU8] ++ toBeBytes4 r.filename.length ++ r.filename ++
        toBeBytes4 r.filebytes.length ++ r.filebytes ∧
    serialize_request ⟨.WRITE, strBytes "a.txt", [104, 105]⟩ =
      [0x01, 0x00, 0x00, 0x00, 0x05, 0x61, 0x2e, 0x74, 0x78, 0x74,
        0x00, 0x00, 0x00, 0x02, 0x68, 0x69] ∧
    deserialize_request
        [0x01, 0x00, 0x00, 0x00, 0x05, 0x61, 0x2e, 0x74, 0x78, 0x74,
          0x00, 0x00, 0x00, 0x02, 0x68, 0x69] =
      .ok ⟨.WRITE, strBytes "a.txt", [104, 105]⟩ := by
  refine ⟨?_, by decide, by decide⟩
  have e1 : r.filename.length % 2 ^ 32 = r.filename.length := Nat.mod_eq_of_lt h1
  have e2 : r.filebytes.length % 2 ^ 32 = r.filebytes.length := Nat.mod_eq_of_lt h2
  unfold serialize_request
  rw [e1, e2]

/-- Witness for C8 at the spec's example request. -/
theorem C8_request_layout_witness :
    serialize_request ⟨.WRITE, strBytes "a.txt", [104, 105]⟩ =
      [Operation.WRITE.toU8] ++ toBeBytes4 (strBytes "a.txt").length ++
        strBytes "a.txt" ++ toBeBytes4 ([104, 105] : List Nat).length ++
        [104, 105] :=
  (C8_request_layout ⟨.WRITE, strBytes "a.txt", [104, 105]⟩
    (by decide) (by decide)).1

/-- C9: the request decoder ignores arbitrary trailing bytes after the
filebytes field, still returning the original request, while the response
decoder's result does depend on bytes remaining after `msg`: appending
four zero bytes to an encoded payload-free response changes its decode
(here into a panic). -/
theorem C9_request_trailing_ignored (r : Request) (t : List Nat)
    (h1 : r.filename.length < 2 ^ 32) (h2 : r.filebytes.length < 2 ^ 32)
    (h3 : isValidUtf8 r.filename = true) :
    deserialize_request (serialize_request r ++ t) = .ok r ∧
    deserialize_response
        (serialize_response ⟨true, [], none, none⟩ ++ [0, 0, 0, 0]) ≠
      .ok ⟨true, [], none, none⟩ := by
  obtain ⟨op, fname, fb⟩ := r
  exact ⟨deser_ser_request op fname fb t h1 h2 h3, by decide⟩

/-- Witness for C9 at the spec's example request with three trailing
bytes. -/
theorem C9_request_trailing_ignored_witness :
    deserialize_request
        (serialize_request ⟨.WRITE, strBytes "a.txt", [104, 105]⟩ ++ [0, 0, 0]) =
      .ok ⟨.WRITE, strBytes "a.txt", [104, 105]⟩ ∧
    deserialize_response
        (serialize_response ⟨true, [], none, none⟩ ++ [0, 0, 0, 0]) ≠
      .ok ⟨true, [], none, none⟩ :=
  C9_request_trailing_ignored ⟨.WRITE, strBytes "a.txt", [104, 105]⟩ [0, 0, 0]
    (by decide) (by decide) (by decide)

/-- C10: each length prefix written by the serializers is the field's byte
length reduced modulo `2^32` (shown for the request's filename and
filebytes prefixes and the response's msg prefix), reading the prefix back
gives exactly that reduced value, and the prefix equals the true byte
count exactly when the field is shorter than `2^32` bytes. -/
theorem C10_length_prefix_truncation (r : Request) (s : Response) :
    slice (serialize_request r) 1 4 =
      some (toBeBytes4 (r.filename.length % 2 ^ 32)) ∧
    slice (serialize_request r) (5 + r.filename.length) 4 =
      some (toBeBytes4 (r.filebytes.length % 2 ^ 32)) ∧
    slice (serialize_response s) 1 4 =
      some (toBeBytes4 (s.msg.length % 2 ^ 32)) ∧
    beVal4 (toBeBytes4 (r.filename.length % 2 ^ 32)) =
      r.filename.length % 2 ^ 32 ∧
    (r.filename.length % 2 ^ 32 = r.filename.length ↔
      r.filename.length < 2 ^ 32) := by
  obtain ⟨op, fname, fb⟩ := r
  refine ⟨?_, ?_, ?_, ?_, ?_⟩
  · exact slice_eq_of_parts _ [op.toU8] (toBeBytes4 (fname.length % 2 ^ 32))
      (fname ++ (toBeBytes4 (fb.length % 2 ^ 32) ++ fb)) 1 4
      (by simp [serialize_request]) (by simp) (length_toBeBytes4 _).symm
  · exact slice_eq_of_parts _
      ([op.toU8] ++ toBeBytes4 (fname.length % 2 ^ 32) ++ fname)
      (toBeBytes4 (fb.length % 2 ^ 32)) fb (5 + fname.length) 4
      (by simp [serialize_request]) (by simp [length_toBeBytes4]; omega)
      (length_toBeBytes4 _).symm
  · obtain ⟨ok, msg, sfn, sfb⟩ := s
    exact slice_eq_of_parts _ [if ok then 1 else 0]
      (toBeBytes4 (msg.length % 2 ^ 32))
      (msg ++
        ((match sfn with
          | some name => toBeBytes4 (name.length % 2 ^ 32) ++ name
          | none => []) ++
        (match sfb with
          | some bytes => toBeBytes4 (bytes.length % 2 ^ 32) ++ bytes
          | none => []))) 1 4
      (by simp [serialize_response]) (by simp) (length_toBeBytes4 _).symm
  · exact (beVal4_toBeBytes4 _).trans (Nat.mod_mod_of_dvd _ dvd_rfl)
  · exact ⟨fun h => h ▸ Nat.mod_lt _ (by norm_num), Nat.mod_eq_of_lt⟩

end FileStore
